import Mathlib

/-!
Shallow embedding of the fleet fuel-tracking application and proofs about its
lifecycle, status-history and analytics logic.

Modelling conventions, used consistently below:
* JavaScript Date values are epoch timestamps in milliseconds, embedded as Int.
* JavaScript numbers holding quantities (litres, kilometres, prices) are
  embedded as exact rationals.
* Optional fields of the TypeScript interfaces are embedded as Option.
* A text input that may be empty or unparseable is embedded as an Option of the
  parsed value, with none standing for the empty or NaN case.
* Record identifiers are strings; the id generator of App.tsx, which produces
  a prefix letter followed by Date.now(), is embedded literally.
-/

namespace FuelApp

/-- Lifecycle status of a FuelEntry or DailyLogEntry; the TypeScript union
is the string union of open and closed (types.ts). The constructor for the
open state is called opened because open is a Lean keyword. -/
inductive EntryStatus where
  | opened
  | closed
deriving DecidableEq, Repr

/-- Vehicle status, the union Active or Inactive (types.ts). -/
inductive VStatus where
  | Active
  | Inactive
deriving DecidableEq, Repr

/-- One element of a Vehicle statusHistory array (types.ts lines 21 to 26). -/
structure StatusPeriod where
  status : VStatus
  startDate : Int
  endDate : Option Int := none
  reason : Option String := none
deriving DecidableEq, Repr

/-- The Vehicle interface (types.ts lines 11 to 27).  The rentPrice and
rentPeriod fields are used by the extended VehicleDetails variant; vehicleType
is kept as a string so that the includes check on the substring Rent can be
embedded directly. -/
structure Vehicle where
  id : String
  projectId : String
  vehicleName : String
  vehicleNumber : String
  vehicleType : String
  fuelType : String
  status : VStatus
  startDate : Option Int := none
  endDate : Option Int := none
  statusHistory : List StatusPeriod := []
  rentPrice : Option ℚ := none
  rentPeriod : Option String := none
deriving DecidableEq, Repr

/-- The Supplier interface (types.ts lines 29 to 36). -/
structure Supplier where
  id : String
  projectId : String
  supplierName : String
  contactPerson : Option String := none
  phoneNumber : Option String := none
  address : Option String := none
deriving DecidableEq, Repr

/-- The FuelEntry interface (types.ts lines 38 to 57), fields in source
order. -/
structure FuelEntry where
  id : String
  date : Int
  projectId : String
  vehicleId : String
  vehicleName : String
  fuelType : String
  supplierId : String
  supplierName : String
  litres : ℚ
  openingKm : ℚ
  closingKm : ℚ
  distance : ℚ
  mileage : ℚ
  status : EntryStatus
  openingKmPhoto : Option String := none
  closingKmPhoto : Option String := none
  pricePerLitre : Option ℚ := none
  totalCost : Option ℚ := none
deriving DecidableEq, Repr

/-- The DailyLogEntry interface (DailyLog.tsx lines 15 to 27). -/
structure DailyLogEntry where
  id : String
  date : Int
  projectId : String
  vehicleId : String
  vehicleName : String
  openingKm : ℚ
  closingKm : Option ℚ := none
  distance : Option ℚ := none
  status : EntryStatus
  openingKmPhoto : Option String := none
  closingKmPhoto : Option String := none
deriving DecidableEq, Repr

/-! ### Store-level handlers of App.tsx -/

/-- App.tsx handleAddFuelEntry: mints the id f followed by Date.now() and
prepends the new entry.  The argument entry stands for the Omit of FuelEntry
over id; its id field is ignored and overwritten. -/
def handleAddFuelEntry (now : Int) (entry : FuelEntry) (prev : List FuelEntry) :
    List FuelEntry :=
  { entry with id := "f" ++ toString now } :: prev

/-- App.tsx handleDeleteFuelEntry: removes every entry whose id equals the
given id. -/
def handleDeleteFuelEntry (id : String) (prev : List FuelEntry) : List FuelEntry :=
  prev.filter (fun e => e.id != id)

/-- App variant handleAddDailyLog: mints the id dl followed by Date.now() and
prepends. -/
def handleAddDailyLog (now : Int) (log : DailyLogEntry) (prev : List DailyLogEntry) :
    List DailyLogEntry :=
  { log with id := "dl" ++ toString now } :: prev

/-- App variant handleCloseDailyLog: in-place update, keyed by id, of the one
log with the given id; it receives the closing reading, the derived distance,
the closed status and the optional closing photo.  All other logs are returned
unchanged. -/
def handleCloseDailyLog (id : String) (closingKm : ℚ) (closingKmPhoto : Option String)
    (prev : List DailyLogEntry) : List DailyLogEntry :=
  prev.map (fun log =>
    if log.id = id then
      { log with
        closingKm := some closingKm
        distance := some (closingKm - log.openingKm)
        status := EntryStatus.closed
        closingKmPhoto := closingKmPhoto }
    else log)

/-! ### FuelManagement.tsx -/

/-- The NewEntryRow form state of FuelManagement.tsx; numeric inputs are the
results of parseFloat on the text fields, with none standing for an empty or
NaN input. -/
structure NewEntryRow where
  date : Option Int
  vehicleId : String
  supplierId : String
  litres : Option ℚ
  openingKm : Option ℚ
  pricePerLitre : Option ℚ
deriving DecidableEq, Repr

/-- FuelManagement.tsx handleAddNewEntry: validates the form and, if every
check passes, hands a fresh open entry to handleAddFuelEntry.  Each early
return of the source (a toast error) is embedded as returning the store
unchanged.  The guards appear in source order: vehicle selected, supplier
selected, date present, litres parses and is positive, openingKm parses and is
nonnegative, vehicle found, supplier found.  The source performs no check for
an already-open entry of the same vehicle. -/
def handleAddNewEntry (now : Int) (selectedProject : String)
    (vehicles : List Vehicle) (suppliers : List Supplier)
    (newEntry : NewEntryRow) (fuelEntries : List FuelEntry) : List FuelEntry :=
  if newEntry.vehicleId = "" then fuelEntries
  else if newEntry.supplierId = "" then fuelEntries
  else
    match newEntry.date with
    | none => fuelEntries
    | some date =>
      match newEntry.litres with
      | none => fuelEntries
      | some litres =>
        if litres ≤ 0 then fuelEntries
        else
          match newEntry.openingKm with
          | none => fuelEntries
          | some openingKm =>
            if openingKm < 0 then fuelEntries
            else
              match vehicles.find? (fun v => v.id == newEntry.vehicleId) with
              | none => fuelEntries
              | some vehicle =>
                match suppliers.find? (fun s => s.id == newEntry.supplierId) with
                | none => fuelEntries
                | some supplier =>
                  let pricePerLitre := newEntry.pricePerLitre.getD 0
                  let totalCost := if pricePerLitre > 0 then pricePerLitre * litres else 0
                  handleAddFuelEntry now
                    { id := ""
                      date := date
                      projectId := selectedProject
                      vehicleId := vehicle.id
                      vehicleName := vehicle.vehicleName
                      fuelType := vehicle.fuelType
                      supplierId := supplier.id
                      supplierName := supplier.supplierName
                      litres := litres
                      openingKm := openingKm
                      closingKm := 0
                      distance := 0
                      mileage := 0
                      status := EntryStatus.opened
                      pricePerLitre := some pricePerLitre
                      totalCost := some totalCost }
                    fuelEntries

/-- FuelManagement.tsx handleSaveClosing: validates the closing reading, then
deletes the open entry and reinserts a closed record carrying every field of
the original plus the closing data.  closingKm is the parseFloat result of the
dialog input (none when empty or NaN); closingKmPhoto is the dialog text state,
where the empty string is falsy and becomes an absent field. -/
def handleSaveClosing (now : Int) (closingEntry : FuelEntry) (closingKm : Option ℚ)
    (closingKmPhoto : String) (fuelEntries : List FuelEntry) : List FuelEntry :=
  match closingKm with
  | none => fuelEntries
  | some closingKmValue =>
    if closingKmValue < closingEntry.openingKm then fuelEntries
    else
      let distance := closingKmValue - closingEntry.openingKm
      let mileage := distance / closingEntry.litres
      handleAddFuelEntry now
        { id := ""
          date := closingEntry.date
          projectId := closingEntry.projectId
          vehicleId := closingEntry.vehicleId
          vehicleName := closingEntry.vehicleName
          fuelType := closingEntry.fuelType
          supplierId := closingEntry.supplierId
          supplierName := closingEntry.supplierName
          litres := closingEntry.litres
          openingKm := closingEntry.openingKm
          closingKm := closingKmValue
          distance := distance
          mileage := mileage
          status := EntryStatus.closed
          openingKmPhoto := closingEntry.openingKmPhoto
          closingKmPhoto := if closingKmPhoto = "" then none else some closingKmPhoto
          pricePerLitre := closingEntry.pricePerLitre
          totalCost := closingEntry.totalCost }
        (handleDeleteFuelEntry closingEntry.id fuelEntries)

/-! ### DailyLog.tsx -/

/-- DailyLog.tsx handleCreateLog: validates the form, rejects when the vehicle
already has an open daily log, and otherwise hands a fresh open log to
handleAddDailyLog. -/
def handleCreateLog (now : Int) (selectedProject : String) (vehicles : List Vehicle)
    (createDate : Int) (createVehicleId : String) (createOpeningKm : Option ℚ)
    (createOpeningPhoto : String) (dailyLogs : List DailyLogEntry) :
    List DailyLogEntry :=
  if createVehicleId = "" then dailyLogs
  else
    match createOpeningKm with
    | none => dailyLogs
    | some openingKm =>
      match dailyLogs.find?
          (fun log => log.vehicleId == createVehicleId
                   && log.status == EntryStatus.opened) with
      | some _ => dailyLogs
      | none =>
        match vehicles.find? (fun v => v.id == createVehicleId) with
        | none => dailyLogs
        | some vehicle =>
          handleAddDailyLog now
            { id := ""
              date := createDate
              projectId := selectedProject
              vehicleId := createVehicleId
              vehicleName := vehicle.vehicleName
              openingKm := openingKm
              closingKm := none
              distance := none
              status := EntryStatus.opened
              openingKmPhoto := if createOpeningPhoto = "" then none
                                else some createOpeningPhoto
              closingKmPhoto := none }
            dailyLogs

/-! ### VehicleManagement.tsx -/

/-- A string is blank when it holds only whitespace; this embeds the source
test of the form not s.trim(), which is true exactly on such strings. -/
def isBlank (s : String) : Bool :=
  s.data.all Char.isWhitespace

/-- The ternary of handleStatusChange choosing the new status: Active becomes
Inactive and conversely. -/
def negateStatus (s : VStatus) : VStatus :=
  if s = VStatus.Active then VStatus.Inactive else VStatus.Active

/-- The map inside handleStatusChange closing the current period: the element
at the last index whose endDate is absent receives endDate equal to the change
date; every other element is returned unchanged. -/
def closeCurrentPeriod (statusChangeDate : Int) (currentHistory : List StatusPeriod) :
    List StatusPeriod :=
  currentHistory.mapIdx (fun index h =>
    if index = currentHistory.length - 1 ∧ h.endDate = none then
      { h with endDate := some statusChangeDate }
    else h)

/-- VehicleManagement.tsx handleStatusChange, expressed as its effect on the
selected vehicle record (onUpdateVehicle merges the computed updates into that
record).  A blank reason is rejected and the vehicle is unchanged.  Otherwise
the status flips, the open period is closed at the change date, a new period
starting at the change date with the given reason is appended, and the
top-level startDate and endDate are updated exactly as in the source: the
startDate is replaced by the change date only when the new status is Active,
and the endDate is set to the change date when the new status is Inactive and
cleared otherwise. -/
def handleStatusChange (selectedVehicle : Vehicle) (statusChangeDate : Int)
    (statusChangeReason : String) : Vehicle :=
  if isBlank statusChangeReason then selectedVehicle
  else
    let newStatus := negateStatus selectedVehicle.status
    let currentHistory := selectedVehicle.statusHistory
    let updatedHistory := closeCurrentPeriod statusChangeDate currentHistory
      ++ [{ status := newStatus
            startDate := statusChangeDate
            endDate := none
            reason := some statusChangeReason }]
    { selectedVehicle with
      status := newStatus
      startDate := if newStatus = VStatus.Active then some statusChangeDate
                   else selectedVehicle.startDate
      endDate := if newStatus = VStatus.Inactive then some statusChangeDate
                 else none
      statusHistory := updatedHistory }

/-- The vehicle registration form state of VehicleManagement.tsx. -/
structure VehicleForm where
  vehicleName : String
  vehicleNumber : String
  vehicleType : String
  fuelType : String
  status : VStatus
  startDate : Option Int
deriving DecidableEq, Repr

/-- The Vehicle record built by VehicleManagement.tsx handleAddVehicle and
App.tsx handleAddVehicle when validation passes: the form fields are copied,
the id is v followed by Date.now(), and the status history is the single open
period starting at the form start date with the initial-registration reason. -/
def mkRegisteredVehicle (now : Int) (selectedProject : String) (form : VehicleForm)
    (startDate : Int) : Vehicle :=
  { id := "v" ++ toString now
    projectId := selectedProject
    vehicleName := form.vehicleName
    vehicleNumber := form.vehicleNumber
    vehicleType := form.vehicleType
    fuelType := form.fuelType
    status := form.status
    startDate := some startDate
    endDate := none
    statusHistory := [{ status := form.status
                        startDate := startDate
                        endDate := none
                        reason := some "Initial vehicle registration" }]
    rentPrice := none
    rentPeriod := none }

/-- VehicleManagement.tsx handleAddVehicle: rejects a blank name or number or a
missing start date, otherwise appends the freshly registered vehicle to the
store (App.tsx handleAddVehicle appends at the end). -/
def handleAddVehicle (now : Int) (selectedProject : String) (form : VehicleForm)
    (vehicles : List Vehicle) : List Vehicle :=
  if isBlank form.vehicleName || isBlank form.vehicleNumber then vehicles
  else
    match form.startDate with
    | none => vehicles
    | some startDate =>
      vehicles ++ [mkRegisteredVehicle now selectedProject form startDate]

/-- The vehicles reachable through the public operations of the Status History
Engine: a vehicle freshly registered through handleAddVehicle, or the result of
handleStatusChange on a reachable vehicle. -/
inductive ReachableVehicle : Vehicle → Prop where
  | registered (now : Int) (selectedProject : String) (form : VehicleForm)
      (startDate : Int) (hsd : form.startDate = some startDate) :
      ReachableVehicle (mkRegisteredVehicle now selectedProject form startDate)
  | statusChanged (v : Vehicle) (statusChangeDate : Int) (statusChangeReason : String)
      (hv : ReachableVehicle v) :
      ReachableVehicle (handleStatusChange v statusChangeDate statusChangeReason)

/-- Adjacent status periods are contiguous: the earlier period ends exactly
where the later one starts. -/
def periodsContiguous (l : List StatusPeriod) : Prop :=
  List.Chain' (fun a b => a.endDate = some b.startDate) l

/-- Every period except possibly the final one carries an end date. -/
def atMostLastOpen (l : List StatusPeriod) : Prop :=
  ∀ i : Nat, i + 1 < l.length → ∀ p, l[i]? = some p → p.endDate ≠ none

/-- The final period carries no end date (the history ends with an ongoing
period). -/
def lastOpen (l : List StatusPeriod) : Prop :=
  ∀ p, l.getLast? = some p → p.endDate = none

/-! ### VehicleDetails.tsx statistics -/

/-- Insertion step of the date sort used by vehicleFuelEntries; the comparator
of the source orders by descending date. -/
def insertByDateDesc (e : FuelEntry) : List FuelEntry → List FuelEntry
  | [] => [e]
  | x :: xs => if e.date > x.date then e :: x :: xs else x :: insertByDateDesc e xs

/-- Sorting by descending date, modelling the Array sort with comparator
b.date minus a.date.  The claims below depend only on this being a
permutation ordered by the comparator. -/
def sortByDateDesc : List FuelEntry → List FuelEntry
  | [] => []
  | e :: rest => insertByDateDesc e (sortByDateDesc rest)

/-- VehicleDetails.tsx vehicleFuelEntries: the entries of the vehicle, sorted
by descending date. -/
def vehicleFuelEntries (vehicle : Vehicle) (fuelEntries : List FuelEntry) :
    List FuelEntry :=
  sortByDateDesc (fuelEntries.filter (fun e => e.vehicleId == vehicle.id))

/-- The reduce of the source summing the image of f over a list, starting
from zero. -/
def sumBy (f : FuelEntry → ℚ) (l : List FuelEntry) : ℚ :=
  l.foldl (fun sum e => sum + f e) 0

/-- Result record of VehicleDetails.tsx vehicleStats. -/
structure VehicleStats where
  totalKm : ℚ
  totalLitres : ℚ
  totalCost : ℚ
  avgMileage : ℚ
  totalEntries : Nat
deriving DecidableEq, Repr

/-- VehicleDetails.tsx vehicleStats (lines 22 to 30): totalKm sums distance
over the closed entries only, totalLitres and totalCost sum over all entries
of the vehicle, and avgMileage divides only when totalLitres is positive and
is zero otherwise.  The source guards each summand with a falsy-default
(distance or 0, litres or 0, totalCost or 0); for the rational embedding the
first two defaults are the identity and the third is getD zero on the optional
field. -/
def vehicleStats (vehicle : Vehicle) (fuelEntries : List FuelEntry) : VehicleStats :=
  let entries := vehicleFuelEntries vehicle fuelEntries
  let closedEntries := entries.filter (fun e => e.status == EntryStatus.closed)
  let totalKm := sumBy (fun e => e.distance) closedEntries
  let totalLitres := sumBy (fun e => e.litres) entries
  let totalCost := sumBy (fun e => e.totalCost.getD 0) entries
  let avgMileage := if totalLitres > 0 then totalKm / totalLitres else 0
  { totalKm := totalKm
    totalLitres := totalLitres
    totalCost := totalCost
    avgMileage := avgMileage
    totalEntries := entries.length }

/-! ### Rental cost of the extended VehicleDetails variant -/

/-- Milliseconds in one day, the divisor 1000 times 60 times 60 times 24 of the
source. -/
def msPerDay : Int := 86400000

/-- Ceiling division of integers: the value of Math.ceil applied to the real
quotient of a by b, for positive b. -/
def ceilDiv (a b : Int) : Int :=
  -(Int.fdiv (-a) b)

/-- The includes test on strings: the pattern occurs as a contiguous substring. -/
def stringIncludes (s pattern : String) : Bool :=
  decide (List.IsInfix pattern.data s.data)

/-- The rent-cost computation of the extended VehicleDetails vehicleStats
(lines 55 to 72): zero unless the vehicle has a truthy rentPrice and its type
contains Rent; otherwise daysDiff is the ceiling of the millisecond span over
one day, plus one, where a missing start or end date defaults to now, and the
rate is multiplied by ceil of daysDiff over 30 for a monthly period, by
daysDiff for a daily period, and by daysDiff times 24 for an hourly period. -/
def totalRentCost (now : Int) (vehicle : Vehicle) : ℚ :=
  match vehicle.rentPrice with
  | none => 0
  | some rentPrice =>
    if rentPrice = 0 then 0
    else if stringIncludes vehicle.vehicleType "Rent" then
      let startDate := vehicle.startDate.getD now
      let endDate := vehicle.endDate.getD now
      let daysDiff := ceilDiv (endDate - startDate) msPerDay + 1
      match vehicle.rentPeriod with
      | some p =>
        if p = "monthly" then rentPrice * ((ceilDiv daysDiff 30 : Int) : ℚ)
        else if p = "daily" then rentPrice * ((daysDiff : Int) : ℚ)
        else if p = "hourly" then rentPrice * ((daysDiff * 24 : Int) : ℚ)
        else 0
      | none => 0
    else 0

/-! ### Status-period duration column -/

/-- The setHours-to-midnight truncation applied by the Duration column body to
both endpoints: the timestamp is floored to the start of its day. -/
def setHoursZero (t : Int) : Int :=
  msPerDay * Int.fdiv t msPerDay

/-- The Duration column body of the vehicle history table: both the start date
and the end date (or now, for an ongoing period) are truncated to midnight,
their difference is floor-divided by one day, and one is added so that both
endpoint days are counted. -/
def periodDurationDays (now : Int) (p : StatusPeriod) : Int :=
  let start := setHoursZero p.startDate
  let stop := setHoursZero (p.endDate.getD now)
  Int.fdiv (stop - start) msPerDay + 1

/-! ### Specification-side definitions for the closing refinement -/

/-- The field update performed on a fuel entry when it is closed: closing
reading, derived distance and mileage, closed status, and the optional closing
photo; every other field is carried over unchanged. -/
def closeEntryFields (e : FuelEntry) (closingKmValue : ℚ) (closingKmPhoto : String) :
    FuelEntry :=
  { e with
    closingKm := closingKmValue
    distance := closingKmValue - e.openingKm
    mileage := (closingKmValue - e.openingKm) / e.litres
    status := EntryStatus.closed
    closingKmPhoto := if closingKmPhoto = "" then none else some closingKmPhoto }

/-- Follows the specification text for closing a fuel entry as a single atomic
in-place field update on the existing record: the store keeps its shape, and
only the record whose id matches is replaced by its closed version. -/
def closeFuelEntryInPlace (entryId : String) (closingKmValue : ℚ)
    (closingKmPhoto : String) (store : List FuelEntry) : List FuelEntry :=
  store.map (fun e =>
    if e.id = entryId then closeEntryFields e closingKmValue closingKmPhoto else e)

/-- Erases the identity of an entry, for comparisons of stores up to record
identity. -/
def stripId (e : FuelEntry) : FuelEntry :=
  { e with id := "" }

/-- Number of open fuel entries of the given vehicle in a store. -/
def openEntriesFor (vehicleId : String) (entries : List FuelEntry) : Nat :=
  (entries.filter (fun e => e.vehicleId == vehicleId
                         && e.status == EntryStatus.opened)).length

/-! ## Helper lemmas -/

/-- Closed form of handleSaveClosing when the closing reading parses and is not
below the opening reading: the old record is filtered out and the closed record,
carrying a freshly minted id, is prepended. -/
theorem handleSaveClosing_some (now : Int) (e : FuelEntry) (km : ℚ) (photo : String)
    (store : List FuelEntry) (h : ¬ km < e.openingKm) :
    handleSaveClosing now e (some km) photo store
      = { closeEntryFields e km photo with id := "f" ++ toString now }
        :: store.filter (fun x => x.id != e.id) := by
  simp [handleSaveClosing, handleAddFuelEntry, handleDeleteFuelEntry,
    closeEntryFields, h]

/-- The source reduce over a list is the sum over the mapped list. -/
theorem sumBy_eq_sum_map (f : FuelEntry → ℚ) (l : List FuelEntry) :
    sumBy f l = (l.map f).sum := by
  simp [sumBy, List.sum_eq_foldl, List.foldl_map]

/-- Inserting into the date-sorted list is a permutation of consing. -/
theorem insertByDateDesc_perm (e : FuelEntry) (l : List FuelEntry) :
    List.Perm (insertByDateDesc e l) (e :: l) := by
  induction l with
  | nil => simp [insertByDateDesc]
  | cons x xs ih =>
    by_cases hd : e.date > x.date
    · simp [insertByDateDesc, hd]
    · simpa [insertByDateDesc, hd] using
        ((ih.cons x).trans (List.Perm.swap e x xs))

/-- The date sort permutes its input. -/
theorem sortByDateDesc_perm (l : List FuelEntry) :
    List.Perm (sortByDateDesc l) l := by
  induction l with
  | nil => simp [sortByDateDesc]
  | cons e rest ih =>
    exact (insertByDateDesc_perm e (sortByDateDesc rest)).trans (ih.cons e)

/-! ## Concrete sample data used by witnesses and counterexamples -/

/-- A sample open fuel entry with litres 10 and opening reading 1000. -/
def c3Entry : FuelEntry :=
  { id := "f100"
    date := 100
    projectId := "Project A"
    vehicleId := "v1"
    vehicleName := "Truck 1"
    fuelType := "Diesel"
    supplierId := "s1"
    supplierName := "Indian Oil"
    litres := 10
    openingKm := 1000
    closingKm := 0
    distance := 0
    mileage := 0
    status := EntryStatus.opened
    pricePerLitre := some 0
    totalCost := some 0 }

/-- A sample vehicle owning the sample entries. -/
def c5Vehicle : Vehicle :=
  { id := "v1"
    projectId := "Project A"
    vehicleName := "Truck 1"
    vehicleNumber := "KA01"
    vehicleType := "Own Vehicle"
    fuelType := "Diesel"
    status := VStatus.Active
    startDate := some 0
    endDate := none
    statusHistory := [{ status := VStatus.Active, startDate := 0,
                        endDate := none,
                        reason := some "Initial vehicle registration" }] }

/-- A sample open daily log with id dl1. -/
def c10Log1 : DailyLogEntry :=
  { id := "dl1"
    date := 100
    projectId := "Project A"
    vehicleId := "v1"
    vehicleName := "Truck 1"
    openingKm := 500
    status := EntryStatus.opened }

/-- A second sample daily log with id dl2, untouched by the close of dl1. -/
def c10Log2 : DailyLogEntry :=
  { id := "dl2"
    date := 100
    projectId := "Project A"
    vehicleId := "v2"
    vehicleName := "Truck 2"
    openingKm := 700
    status := EntryStatus.opened }

/-! ## Claims -/

/-- C9.  Closing a FuelEntry with a closing reading exactly equal to the opening
reading is not rejected: the operation goes through, the resulting record is
closed with distance zero and mileage zero, and the rest of the store is the old
store with the original record removed.  The mileage is the rational zero
regardless of litres, so no division-by-zero failure can occur. -/
theorem close_at_equal_km_succeeds (now : Int) (e : FuelEntry) (photo : String)
    (store : List FuelEntry) :
    ∃ closedRec : FuelEntry,
      handleSaveClosing now e (some e.openingKm) photo store
        = closedRec :: store.filter (fun x => x.id != e.id)
      ∧ closedRec.distance = 0
      ∧ closedRec.mileage = 0
      ∧ closedRec.status = EntryStatus.closed := by
  refine ⟨{ closeEntryFields e e.openingKm photo with id := "f" ++ toString now },
    handleSaveClosing_some now e e.openingKm photo store (lt_irrefl _), ?_, ?_, rfl⟩
  · simp [closeEntryFields]
  · simp [closeEntryFields]

/-- C3.  handleSaveClosing rejects a closing reading strictly below the opening
reading, leaving the store (and hence the still-open entry) unchanged; with a
closing reading at or above the opening reading it produces a closed record
whose distance is the difference of the readings, whose mileage is that
distance divided by the litres, whose closing photo is attached exactly when
one was provided, and whose date, vehicle, supplier, litres, price and opening
reading are carried over unchanged. -/
theorem handleSaveClosing_validates_and_computes (now : Int) (e : FuelEntry)
    (km : ℚ) (photo : String) (store : List FuelEntry) :
    (km < e.openingKm → handleSaveClosing now e (some km) photo store = store)
  ∧ (e.openingKm ≤ km →
      ∃ closedRec : FuelEntry,
        handleSaveClosing now e (some km) photo store
          = closedRec :: store.filter (fun x => x.id != e.id)
      ∧ closedRec.distance = km - e.openingKm
      ∧ closedRec.mileage = (km - e.openingKm) / e.litres
      ∧ closedRec.status = EntryStatus.closed
      ∧ closedRec.closingKm = km
      ∧ closedRec.closingKmPhoto = (if photo = "" then none else some photo)
      ∧ (photo ≠ "" → closedRec.closingKmPhoto = some photo)
      ∧ closedRec.date = e.date
      ∧ closedRec.vehicleId = e.vehicleId
      ∧ closedRec.vehicleName = e.vehicleName
      ∧ closedRec.supplierId = e.supplierId
      ∧ closedRec.supplierName = e.supplierName
      ∧ closedRec.litres = e.litres
      ∧ closedRec.pricePerLitre = e.pricePerLitre
      ∧ closedRec.openingKm = e.openingKm) := by
  constructor
  · intro hlt
    simp [handleSaveClosing, hlt]
  · intro hge
    refine ⟨{ closeEntryFields e km photo with id := "f" ++ toString now },
      handleSaveClosing_some now e km photo store (not_lt.mpr hge),
      ?_, ?_, rfl, ?_, ?_, ?_, rfl, rfl, rfl, rfl, rfl, rfl, rfl, rfl⟩
    · simp [closeEntryFields]
    · simp [closeEntryFields]
    · simp [closeEntryFields]
    · simp [closeEntryFields]
    · intro hph
      simp [closeEntryFields, hph]

/-- Witness for C3 at a concrete input: litres 10, opening reading 1000,
closing reading 900 is rejected, and closing reading 1450 is accepted with the
computed fields. -/
theorem handleSaveClosing_validates_and_computes_witness :
    handleSaveClosing 2 c3Entry (some 900) "" [c3Entry] = [c3Entry]
  ∧ (∃ closedRec : FuelEntry,
      handleSaveClosing 2 c3Entry (some 1450) "photo.jpg" [c3Entry]
        = closedRec :: [c3Entry].filter (fun x => x.id != c3Entry.id)
    ∧ closedRec.distance = 1450 - c3Entry.openingKm
    ∧ closedRec.mileage = (1450 - c3Entry.openingKm) / c3Entry.litres
    ∧ closedRec.status = EntryStatus.closed
    ∧ closedRec.closingKm = 1450
    ∧ closedRec.closingKmPhoto
        = (if ("photo.jpg" : String) = "" then none else some "photo.jpg")
    ∧ (("photo.jpg" : String) ≠ "" → closedRec.closingKmPhoto = some "photo.jpg")
    ∧ closedRec.date = c3Entry.date
    ∧ closedRec.vehicleId = c3Entry.vehicleId
    ∧ closedRec.vehicleName = c3Entry.vehicleName
    ∧ closedRec.supplierId = c3Entry.supplierId
    ∧ closedRec.supplierName = c3Entry.supplierName
    ∧ closedRec.litres = c3Entry.litres
    ∧ closedRec.pricePerLitre = c3Entry.pricePerLitre
    ∧ closedRec.openingKm = c3Entry.openingKm) :=
  ⟨(handleSaveClosing_validates_and_computes 2 c3Entry 900 "" [c3Entry]).1
      (by decide),
   (handleSaveClosing_validates_and_computes 2 c3Entry 1450 "photo.jpg"
      [c3Entry]).2 (by decide)⟩

/-- C5.  The per-vehicle aggregates of vehicleStats: totalKm sums distance over
the closed entries of the vehicle only, totalLitres sums litres over all
entries of the vehicle regardless of status, avgMileage is the quotient of the
two when totalLitres is positive and is zero otherwise; in particular it is
zero whenever totalLitres is zero, and zero on the empty store.  In the
rational embedding the guarded quotient is always a well-defined rational, so
no NaN or infinite value can arise. -/
theorem vehicleStats_aggregates (vehicle : Vehicle) (fuelEntries : List FuelEntry) :
    (vehicleStats vehicle fuelEntries).totalKm
      = (((fuelEntries.filter (fun e => e.vehicleId == vehicle.id)).filter
            (fun e => e.status == EntryStatus.closed)).map (fun e => e.distance)).sum
  ∧ (vehicleStats vehicle fuelEntries).totalLitres
      = ((fuelEntries.filter (fun e => e.vehicleId == vehicle.id)).map
            (fun e => e.litres)).sum
  ∧ (vehicleStats vehicle fuelEntries).avgMileage
      = (if (vehicleStats vehicle fuelEntries).totalLitres > 0 then
            (vehicleStats vehicle fuelEntries).totalKm
              / (vehicleStats vehicle fuelEntries).totalLitres
         else 0)
  ∧ ((vehicleStats vehicle fuelEntries).totalLitres = 0 →
        (vehicleStats vehicle fuelEntries).avgMileage = 0)
  ∧ (vehicleStats vehicle []).avgMileage = 0 := by
  have hperm : List.Perm (vehicleFuelEntries vehicle fuelEntries)
      (fuelEntries.filter (fun e => e.vehicleId == vehicle.id)) :=
    sortByDateDesc_perm _
  have hKm : (vehicleStats vehicle fuelEntries).totalKm
      = (((fuelEntries.filter (fun e => e.vehicleId == vehicle.id)).filter
            (fun e => e.status == EntryStatus.closed)).map (fun e => e.distance)).sum := by
    have : (vehicleStats vehicle fuelEntries).totalKm
        = sumBy (fun e => e.distance)
            ((vehicleFuelEntries vehicle fuelEntries).filter
              (fun e => e.status == EntryStatus.closed)) := rfl
    rw [this, sumBy_eq_sum_map]
    exact ((hperm.filter _).map _).sum_eq
  have hL : (vehicleStats vehicle fuelEntries).totalLitres
      = ((fuelEntries.filter (fun e => e.vehicleId == vehicle.id)).map
            (fun e => e.litres)).sum := by
    have : (vehicleStats vehicle fuelEntries).totalLitres
        = sumBy (fun e => e.litres) (vehicleFuelEntries vehicle fuelEntries) := rfl
    rw [this, sumBy_eq_sum_map]
    exact (hperm.map _).sum_eq
  have hAvg : (vehicleStats vehicle fuelEntries).avgMileage
      = (if (vehicleStats vehicle fuelEntries).totalLitres > 0 then
            (vehicleStats vehicle fuelEntries).totalKm
              / (vehicleStats vehicle fuelEntries).totalLitres
         else 0) := rfl
  refine ⟨hKm, hL, hAvg, ?_, ?_⟩
  · intro h0
    rw [hAvg, h0]
    simp
  · have : (vehicleStats vehicle []).avgMileage
        = (if (vehicleStats vehicle []).totalLitres > 0 then
              (vehicleStats vehicle []).totalKm / (vehicleStats vehicle []).totalLitres
           else 0) := rfl
    rw [this]
    have h0 : (vehicleStats vehicle []).totalLitres = 0 := rfl
    rw [h0]
    simp

/-- Witness for C5 at a concrete input: the litres sum over a one-entry store
and the zero average on the empty store. -/
theorem vehicleStats_aggregates_witness :
    (vehicleStats c5Vehicle [c3Entry]).totalLitres
      = (([c3Entry].filter (fun e => e.vehicleId == c5Vehicle.id)).map
            (fun e => e.litres)).sum
  ∧ (vehicleStats c5Vehicle []).avgMileage = 0 :=
  ⟨(vehicleStats_aggregates c5Vehicle [c3Entry]).2.1,
   (vehicleStats_aggregates c5Vehicle []).2.2.2.1 (by decide)⟩

/-- C7.  The displayed duration of a status period truncates both the start
date and the end date (now, for an ongoing period) to the beginning of their
days, floor-divides the difference by one day and adds one: it equals the
difference of the two calendar-day indices plus one, counting both endpoint
days inclusively.  A period spanning day 1 to day 10 displays 10 days, and a
period starting and ending on the same day displays 1 day. -/
theorem periodDuration_inclusive_days :
    (∀ (now : Int) (p : StatusPeriod),
        periodDurationDays now p
          = Int.fdiv (p.endDate.getD now) msPerDay - Int.fdiv p.startDate msPerDay + 1)
  ∧ (∀ s e : Int,
        periodDurationDays 0
          { status := VStatus.Active, startDate := msPerDay * s,
            endDate := some (msPerDay * e), reason := none } = e - s + 1)
  ∧ periodDurationDays 0
      { status := VStatus.Active, startDate := msPerDay * 1,
        endDate := some (msPerDay * 10), reason := none } = 10
  ∧ periodDurationDays 0
      { status := VStatus.Active, startDate := msPerDay * 7,
        endDate := some (msPerDay * 7), reason := none } = 1 := by
  have hms : (msPerDay : Int) ≠ 0 := by decide
  have main : ∀ (now : Int) (p : StatusPeriod),
      periodDurationDays now p
        = Int.fdiv (p.endDate.getD now) msPerDay - Int.fdiv p.startDate msPerDay + 1 := by
    intro now p
    show Int.fdiv (setHoursZero (p.endDate.getD now) - setHoursZero p.startDate)
          msPerDay + 1 = _
    unfold setHoursZero
    rw [← mul_sub, Int.mul_fdiv_cancel_left _ hms]
  have inst : ∀ s e : Int,
      periodDurationDays 0
        { status := VStatus.Active, startDate := msPerDay * s,
          endDate := some (msPerDay * e), reason := none } = e - s + 1 := by
    intro s e
    rw [main]
    simp only [Option.getD_some]
    rw [Int.mul_fdiv_cancel_left _ hms, Int.mul_fdiv_cancel_left _ hms]
  exact ⟨main, inst, (inst 1 10).trans (by decide), (inst 7 7).trans (by decide)⟩

/-- C10.  handleCloseDailyLog is a true in-place update keyed by id: the length
and order of the collection are preserved, every log at a position whose id
differs from the key is returned unchanged at that position, the log with the
matched id stays at its position keeping its id and all non-closing fields, and
when no log carries the key the whole collection is returned unchanged. -/
theorem handleCloseDailyLog_frame (id : String) (km : ℚ) (photo : Option String)
    (logs : List DailyLogEntry) :
    (handleCloseDailyLog id km photo logs).length = logs.length
  ∧ (∀ (i : Nat) (log : DailyLogEntry), logs[i]? = some log → log.id ≠ id →
        (handleCloseDailyLog id km photo logs)[i]? = some log)
  ∧ (∀ (i : Nat) (log : DailyLogEntry), logs[i]? = some log → log.id = id →
        ∃ c : DailyLogEntry,
          (handleCloseDailyLog id km photo logs)[i]? = some c
        ∧ c.id = log.id
        ∧ c.status = EntryStatus.closed
        ∧ c.closingKm = some km
        ∧ c.distance = some (km - log.openingKm)
        ∧ c.closingKmPhoto = photo
        ∧ c.date = log.date
        ∧ c.projectId = log.projectId
        ∧ c.vehicleId = log.vehicleId
        ∧ c.vehicleName = log.vehicleName
        ∧ c.openingKm = log.openingKm
        ∧ c.openingKmPhoto = log.openingKmPhoto)
  ∧ ((∀ log ∈ logs, log.id ≠ id) → handleCloseDailyLog id km photo logs = logs) := by
  refine ⟨?_, ?_, ?_, ?_⟩
  · simp [handleCloseDailyLog]
  · intro i log hlog hne
    simp [handleCloseDailyLog, List.getElem?_map, hlog, hne]
  · intro i log hlog heq
    refine ⟨{ log with
              closingKm := some km
              distance := some (km - log.openingKm)
              status := EntryStatus.closed
              closingKmPhoto := photo },
      ?_, rfl, rfl, rfl, rfl, rfl, rfl, rfl, rfl, rfl, rfl, rfl⟩
    simp [handleCloseDailyLog, List.getElem?_map, hlog, heq]
  · intro hall
    simp only [handleCloseDailyLog]
    rw [List.map_congr_left (fun a ha => if_neg (hall a ha))]
    exact List.map_id _

/-- Witness for C10 at a concrete input: closing the log dl1 in a two-log
collection keeps the length, leaves the unrelated log dl2 at its position, and
keeps the closed record at position zero with its id. -/
theorem handleCloseDailyLog_frame_witness :
    (handleCloseDailyLog "dl1" 5 none [c10Log1, c10Log2]).length = 2
  ∧ (handleCloseDailyLog "dl1" 5 none [c10Log1, c10Log2])[1]? = some c10Log2
  ∧ (∃ c : DailyLogEntry,
      (handleCloseDailyLog "dl1" 5 none [c10Log1, c10Log2])[0]? = some c
    ∧ c.id = c10Log1.id
    ∧ c.status = EntryStatus.closed
    ∧ c.closingKm = some 5
    ∧ c.distance = some (5 - c10Log1.openingKm)
    ∧ c.closingKmPhoto = none
    ∧ c.date = c10Log1.date
    ∧ c.projectId = c10Log1.projectId
    ∧ c.vehicleId = c10Log1.vehicleId
    ∧ c.vehicleName = c10Log1.vehicleName
    ∧ c.openingKm = c10Log1.openingKm
    ∧ c.openingKmPhoto = c10Log1.openingKmPhoto) :=
  ⟨(handleCloseDailyLog_frame "dl1" 5 none [c10Log1, c10Log2]).1,
   (handleCloseDailyLog_frame "dl1" 5 none [c10Log1, c10Log2]).2.1 1 c10Log2
      rfl (by decide),
   (handleCloseDailyLog_frame "dl1" 5 none [c10Log1, c10Log2]).2.2.1 0 c10Log1
      rfl rfl⟩

/-- A sample supplier for the project. -/
def c1Supplier : Supplier :=
  { id := "s1"
    projectId := "Project A"
    supplierName := "Indian Oil" }

/-- A fully valid new-entry form for vehicle v1, filled while v1 already has
the open entry c3Entry in the store. -/
def c1Row : NewEntryRow :=
  { date := some 200
    vehicleId := "v1"
    supplierId := "s1"
    litres := some 12
    openingKm := some 1450
    pricePerLitre := none }

/-- C1.  Contrary to the stated precondition, handleAddNewEntry performs no
check for an already-open FuelEntry of the selected vehicle: starting from a
store whose only entry is the open entry c3Entry of vehicle v1, submitting a
valid form for v1 is not rejected — it creates a second entry, and afterwards
the store holds two open entries for v1 instead of exactly one.  (The parallel
daily-log operation handleCreateLog does perform this check.) -/
theorem handleAddNewEntry_allows_second_open_entry :
    openEntriesFor "v1" [c3Entry] = 1
  ∧ openEntriesFor "v1"
      (handleAddNewEntry 200 "Project A" [c5Vehicle] [c1Supplier] c1Row [c3Entry])
      = 2 := by
  decide

/-- C6 counterexample.  For the freshly registered active vehicle c5Vehicle,
deactivating it on day 5 appends a current period starting at 5, but the
top-level startDate keeps its old value 0: the top-level startDate does not
mirror the new current period. -/
theorem handleStatusChange_startDate_not_mirrored :
    ((handleStatusChange c5Vehicle 5 "repair").statusHistory.getLast?).map
        StatusPeriod.startDate = some 5
  ∧ (handleStatusChange c5Vehicle 5 "repair").startDate = some 0
  ∧ (0 : Int) ≠ 5 := by
  decide

/-- C6 amended.  After a status change with a non-blank reason, the top-level
status equals the status of the new current period, the new current period is
the appended one starting at the effective date with the given reason, the
endDate is cleared on a transition to Active and set to the effective date on a
transition to Inactive, and the top-level startDate is set to the effective
date only on a transition to Active — on a transition to Inactive the previous
top-level startDate is retained and does not mirror the new period. -/
theorem handleStatusChange_mirrors_except_inactive_startDate :
    ∀ (v : Vehicle) (d : Int) (reason : String), isBlank reason = false →
      (handleStatusChange v d reason).status = negateStatus v.status
    ∧ (handleStatusChange v d reason).statusHistory.getLast?
        = some { status := negateStatus v.status, startDate := d, endDate := none,
                 reason := some reason }
    ∧ ((handleStatusChange v d reason).status = VStatus.Active →
          (handleStatusChange v d reason).startDate = some d
        ∧ (handleStatusChange v d reason).endDate = none)
    ∧ ((handleStatusChange v d reason).status = VStatus.Inactive →
          (handleStatusChange v d reason).endDate = some d
        ∧ (handleStatusChange v d reason).startDate = v.startDate) := by
  intro v d reason hb
  cases hS : v.status with
  | Active =>
    refine ⟨?_, ?_, ?_, ?_⟩ <;>
      simp [handleStatusChange, hb, negateStatus, hS, List.getLast?_concat]
  | Inactive =>
    refine ⟨?_, ?_, ?_, ?_⟩ <;>
      simp [handleStatusChange, hb, negateStatus, hS, List.getLast?_concat]

/-- Witness for the amended C6 at a concrete input: deactivating the sample
vehicle on day 5 with reason repair. -/
theorem handleStatusChange_mirrors_except_inactive_startDate_witness :
    (handleStatusChange c5Vehicle 5 "repair").status = negateStatus c5Vehicle.status
  ∧ (handleStatusChange c5Vehicle 5 "repair").statusHistory.getLast?
      = some { status := negateStatus c5Vehicle.status, startDate := 5,
               endDate := none, reason := some "repair" }
  ∧ ((handleStatusChange c5Vehicle 5 "repair").status = VStatus.Inactive →
        (handleStatusChange c5Vehicle 5 "repair").endDate = some 5
      ∧ (handleStatusChange c5Vehicle 5 "repair").startDate = c5Vehicle.startDate) :=
  ⟨(handleStatusChange_mirrors_except_inactive_startDate c5Vehicle 5 "repair"
      (by decide)).1,
   (handleStatusChange_mirrors_except_inactive_startDate c5Vehicle 5 "repair"
      (by decide)).2.1,
   (handleStatusChange_mirrors_except_inactive_startDate c5Vehicle 5 "repair"
      (by decide)).2.2.2⟩

/-- The closed record with the old one filtered out is, as a multiset, the
in-place map when the ids of the store are distinct and the entry belongs to
the store. -/
theorem close_filter_perm_map (km : ℚ) (photo : String) (e : FuelEntry)
    (store : List FuelEntry) (hmem : e ∈ store)
    (hnd : (store.map FuelEntry.id).Nodup) :
    List.Perm (closeEntryFields e km photo :: store.filter (fun x => x.id != e.id))
      (store.map (fun x => if x.id = e.id then closeEntryFields x km photo else x)) := by
  induction store with
  | nil => exact absurd hmem (List.not_mem_nil e)
  | cons h t ih =>
    rw [List.map_cons, List.nodup_cons] at hnd
    by_cases hid : h.id = e.id
    · have heh : e = h := by
        rcases List.mem_cons.mp hmem with h1 | h2
        · exact h1
        · exact absurd (by rw [hid]; exact List.mem_map_of_mem _ h2) hnd.1
      subst heh
      have hfilter : t.filter (fun x => x.id != e.id) = t := by
        rw [List.filter_eq_self]
        intro a ha
        rw [bne_iff_ne]
        intro hcontra
        exact hnd.1 (hcontra ▸ List.mem_map_of_mem _ ha)
      have hmap : t.map (fun x => if x.id = e.id then closeEntryFields x km photo
          else x) = t := by
        have hfix : ∀ a ∈ t,
            (if a.id = e.id then closeEntryFields a km photo else a) = a := by
          intro a ha
          have hne : a.id ≠ e.id := by
            intro hcontra
            exact hnd.1 (hcontra ▸ List.mem_map_of_mem _ ha)
          exact if_neg hne
        rw [List.map_congr_left hfix]
        exact List.map_id _
      simp only [List.filter_cons, bne_self_eq_false, List.map_cons, if_pos rfl,
        hfilter, hmap, Bool.false_eq_true, if_false]
      exact List.Perm.refl _
    · have he2 : e ∈ t := by
        rcases List.mem_cons.mp hmem with h1 | h2
        · exact absurd (congrArg FuelEntry.id h1.symm) hid
        · exact h2
      have ih2 := ih he2 hnd.2
      have hcons : (h :: t).filter (fun x => x.id != e.id)
          = h :: t.filter (fun x => x.id != e.id) := by
        simp [List.filter_cons, bne_iff_ne, hid]
      rw [hcons, List.map_cons, if_neg hid]
      exact (List.Perm.swap h (closeEntryFields e km photo) _).trans (ih2.cons h)

/-- C2 counterexample.  Closing the open entry c3Entry, whose id is f100, at
Date.now() equal to 200 produces a store whose only id is the freshly minted
f200, while the atomic in-place update keeps the id f100: the delete-then-
reinsert strategy does not preserve the externally observable record
identity. -/
theorem handleSaveClosing_changes_id :
    (handleSaveClosing 200 c3Entry (some 1450) "" [c3Entry]).map FuelEntry.id
      = ["f200"]
  ∧ (closeFuelEntryInPlace c3Entry.id 1450 "" [c3Entry]).map FuelEntry.id
      = ["f100"]
  ∧ ("f200" : String) ≠ "f100" := by
  decide

/-- C2 amended.  When the closed entry belongs to the store and the ids of the
store are pairwise distinct, the delete-then-reinsert close is observationally
equivalent to the atomic in-place field update up to record identity and
position: after erasing the ids, the two resulting stores are permutations of
each other — every field value of every record agrees with the in-place
update.  The identity itself is not preserved (see the counterexample): the
closed record carries a freshly minted id and moves to the head of the
store. -/
theorem handleSaveClosing_equiv_inPlace_up_to_id (now : Int) (e : FuelEntry)
    (km : ℚ) (photo : String) (store : List FuelEntry)
    (hmem : e ∈ store) (hnd : (store.map FuelEntry.id).Nodup)
    (hkm : ¬ km < e.openingKm) :
    List.Perm ((handleSaveClosing now e (some km) photo store).map stripId)
              ((closeFuelEntryInPlace e.id km photo store).map stripId) := by
  rw [handleSaveClosing_some now e km photo store hkm]
  simp only [closeFuelEntryInPlace, List.map_cons]
  have hhead : stripId { closeEntryFields e km photo with id := "f" ++ toString now }
      = stripId (closeEntryFields e km photo) := rfl
  rw [hhead, ← List.map_cons]
  exact (close_filter_perm_map km photo e store hmem hnd).map stripId

/-- Witness for the amended C2 at a concrete input: closing c3Entry at reading
1450 in the singleton store. -/
theorem handleSaveClosing_equiv_inPlace_up_to_id_witness :
    List.Perm ((handleSaveClosing 200 c3Entry (some 1450) "" [c3Entry]).map stripId)
              ((closeFuelEntryInPlace c3Entry.id 1450 "" [c3Entry]).map stripId) :=
  handleSaveClosing_equiv_inPlace_up_to_id 200 c3Entry 1450 "" [c3Entry]
    (List.mem_singleton_self _) (by decide) (by decide)

/-- A map with index that fixes every position below the length is the
identity. -/
theorem mapIdx_eq_self {α : Type} (l : List α) (f : Nat → α → α)
    (h : ∀ i, i < l.length → ∀ x, f i x = x) : l.mapIdx f = l := by
  induction l generalizing f with
  | nil => rfl
  | cons a t ih =>
    rw [List.mapIdx_cons, h 0 (by simp) a,
      ih (fun i x => f (i + 1) x)
        (fun i hi x => h (i + 1) (by simpa using Nat.succ_lt_succ hi) x)]

/-- closeCurrentPeriod on a history ending in an open period closes exactly
that last period and leaves every earlier period untouched. -/
theorem closeCurrentPeriod_concat (d : Int) (init : List StatusPeriod)
    (a : StatusPeriod) (ha : a.endDate = none) :
    closeCurrentPeriod d (init ++ [a]) = init ++ [{ a with endDate := some d }] := by
  unfold closeCurrentPeriod
  rw [List.mapIdx_append]
  congr 1
  · apply mapIdx_eq_self
    intro i hi x
    rw [if_neg]
    intro hcond
    have hidx : i = (init ++ [a]).length - 1 := hcond.1
    simp only [List.length_append, List.length_singleton, Nat.add_sub_cancel] at hidx
    omega
  · rw [List.mapIdx_cons]
    simp [List.length_append, ha]

/-- Both the registration operation and the status-change operation keep the
status history nonempty, contiguous and ending in an open period. -/
theorem reachable_history_invariant (v : Vehicle) (hv : ReachableVehicle v) :
    v.statusHistory ≠ [] ∧ periodsContiguous v.statusHistory
      ∧ lastOpen v.statusHistory := by
  induction hv with
  | registered now selectedProject form startDate hsd =>
    refine ⟨by simp [mkRegisteredVehicle], List.chain'_singleton _, ?_⟩
    intro p hp
    simp only [mkRegisteredVehicle, List.getLast?_singleton, Option.some_inj] at hp
    rw [← hp]
  | statusChanged v d reason hv ih =>
    obtain ⟨hne, hchain, hlast⟩ := ih
    by_cases hb : isBlank reason
    · simpa [handleStatusChange, hb] using ⟨hne, hchain, hlast⟩
    · have hbf : isBlank reason = false := by simpa using hb
      have hdecomp : v.statusHistory.dropLast ++ [v.statusHistory.getLast hne]
          = v.statusHistory := List.dropLast_append_getLast hne
      have ha : (v.statusHistory.getLast hne).endDate = none :=
        hlast _ (List.getLast?_eq_getLast v.statusHistory hne)
      have hhist : (handleStatusChange v d reason).statusHistory
          = closeCurrentPeriod d v.statusHistory
            ++ [{ status := negateStatus v.status, startDate := d, endDate := none,
                  reason := some reason }] := by
        simp [handleStatusChange, hbf]
      have hclose : closeCurrentPeriod d v.statusHistory
          = v.statusHistory.dropLast
            ++ [{ v.statusHistory.getLast hne with endDate := some d }] := by
        conv_lhs => rw [← hdecomp]
        exact closeCurrentPeriod_concat d _ _ ha
      rw [← hdecomp] at hchain
      rcases List.chain'_append.mp hchain with ⟨h1, _, h3⟩
      refine ⟨by simp [hhist], ?_, ?_⟩
      · rw [hhist, hclose]
        apply List.chain'_append.mpr
        refine ⟨?_, List.chain'_singleton _, ?_⟩
        · apply List.chain'_append.mpr
          refine ⟨h1, List.chain'_singleton _, ?_⟩
          intro x hx y hy
          simp only [List.head?_cons, Option.mem_def, Option.some_inj] at hy
          have hrel := h3 x hx (v.statusHistory.getLast hne) (by simp)
          rw [← hy]
          exact hrel
        · intro x hx y hy
          simp only [List.getLast?_concat, Option.mem_def, Option.some_inj] at hx
          simp only [List.head?_cons, Option.mem_def, Option.some_inj] at hy
          rw [← hx, ← hy]
      · intro p hp
        rw [hhist, List.getLast?_concat, Option.some_inj] at hp
        rw [← hp]

/-- Contiguity forces every period before the last to carry an end date. -/
theorem contiguous_imp_atMostLastOpen (l : List StatusPeriod)
    (h : periodsContiguous l) : atMostLastOpen l := by
  intro i hi p hp
  have hlen : i < l.length := by omega
  have hrel := List.chain'_iff_get.mp h i (by omega)
  have hpi : p = l.get ⟨i, hlen⟩ := by
    rw [List.getElem?_eq_getElem hlen, Option.some_inj] at hp
    rw [← hp, List.get_eq_getElem]
  rw [hpi, hrel]
  simp

/-- C4.  With a non-blank reason, handleStatusChange flips the status, closes
the last open status period by setting its end date to the effective date, and
appends a new period starting at that same effective date carrying the given
reason; consequently every vehicle reachable through registration and status
changes has a status history in which each pair of consecutive periods shares
its boundary date and at most the last period lacks an end date. -/
theorem statusHistory_contiguous :
    (∀ (v : Vehicle) (d : Int) (reason : String) (init : List StatusPeriod)
        (p : StatusPeriod), isBlank reason = false →
        v.statusHistory = init ++ [p] → p.endDate = none →
          (handleStatusChange v d reason).status = negateStatus v.status
        ∧ (handleStatusChange v d reason).statusHistory
            = init ++ [{ p with endDate := some d }]
              ++ [{ status := negateStatus v.status, startDate := d, endDate := none,
                    reason := some reason }])
  ∧ (∀ v : Vehicle, ReachableVehicle v →
        periodsContiguous v.statusHistory ∧ atMostLastOpen v.statusHistory) := by
  constructor
  · intro v d reason init p hb hdec hpe
    refine ⟨by simp [handleStatusChange, hb], ?_⟩
    have hhist : (handleStatusChange v d reason).statusHistory
        = closeCurrentPeriod d v.statusHistory
          ++ [{ status := negateStatus v.status, startDate := d, endDate := none,
                reason := some reason }] := by
      simp [handleStatusChange, hb]
    rw [hhist, hdec, closeCurrentPeriod_concat d init p hpe]
  · intro v hv
    have h := reachable_history_invariant v hv
    exact ⟨h.2.1, contiguous_imp_atMostLastOpen _ h.2.1⟩

/-- A registration form with a present start date, used to build a reachable
vehicle. -/
def c4Form : VehicleForm :=
  { vehicleName := "Truck 2"
    vehicleNumber := "KA02"
    vehicleType := "Own Vehicle"
    fuelType := "Petrol"
    status := VStatus.Active
    startDate := some 10 }

/-- Witness for C4 at concrete inputs: deactivating the sample vehicle closes
its single open period at day 5 and appends the new period, and a vehicle
registered on day 10 then deactivated on day 20 has a contiguous history with
at most the last period open. -/
theorem statusHistory_contiguous_witness :
    ((handleStatusChange c5Vehicle 5 "repair").status = negateStatus c5Vehicle.status
  ∧ (handleStatusChange c5Vehicle 5 "repair").statusHistory
      = [] ++ [{ status := VStatus.Active, startDate := 0, endDate := some 5,
                 reason := some "Initial vehicle registration" }]
        ++ [{ status := negateStatus c5Vehicle.status, startDate := 5, endDate := none,
              reason := some "repair" }])
  ∧ (periodsContiguous
        (handleStatusChange (mkRegisteredVehicle 1 "Project A" c4Form 10)
          20 "broke").statusHistory
  ∧ atMostLastOpen
        (handleStatusChange (mkRegisteredVehicle 1 "Project A" c4Form 10)
          20 "broke").statusHistory) :=
  ⟨statusHistory_contiguous.1 c5Vehicle 5 "repair" []
      { status := VStatus.Active, startDate := 0, endDate := none,
        reason := some "Initial vehicle registration" } (by decide) rfl rfl,
   statusHistory_contiguous.2 _ (ReachableVehicle.statusChanged _ 20 "broke"
      (ReachableVehicle.registered 1 "Project A" c4Form 10 rfl))⟩

/-- C8.  For a vehicle with a truthy rent price whose type contains Rent, the
rent cost multiplies the rate by the number of billing units, where the day
count is the ceiling of the span over one day plus one, a monthly period bills
the ceiling of the day count over 30, a daily period bills the day count, and
an hourly period bills the day count times 24.  The final conjunct is the
round-up law of ceiling division: for a positive unit the billed multiple is
at least the quantity and overshoots it by less than one unit, so billing
never rounds down. -/
theorem totalRentCost_stepped_rounding :
    (∀ (now : Int) (v : Vehicle) (rate : ℚ),
        v.rentPrice = some rate → rate ≠ 0 →
        stringIncludes v.vehicleType "Rent" = true →
          (v.rentPeriod = some "monthly" →
            totalRentCost now v
              = rate * ((ceilDiv (ceilDiv (v.endDate.getD now - v.startDate.getD now)
                  msPerDay + 1) 30 : Int) : ℚ))
        ∧ (v.rentPeriod = some "daily" →
            totalRentCost now v
              = rate * ((ceilDiv (v.endDate.getD now - v.startDate.getD now) msPerDay
                  + 1 : Int) : ℚ))
        ∧ (v.rentPeriod = some "hourly" →
            totalRentCost now v
              = rate * (((ceilDiv (v.endDate.getD now - v.startDate.getD now) msPerDay
                  + 1) * 24 : Int) : ℚ)))
  ∧ (∀ a b : Int, 0 < b → a ≤ b * ceilDiv a b ∧ b * ceilDiv a b < a + b) := by
  constructor
  · intro now v rate hrp hr0 hinc
    refine ⟨?_, ?_, ?_⟩ <;> intro hp <;>
      simp [totalRentCost, hrp, hr0, hinc, hp]
  · intro a b hb
    have hbne : b ≠ 0 := ne_of_gt hb
    have hfd : Int.fdiv (-a) b = (-a) / b := Int.fdiv_eq_ediv _ hb.le
    have hmod0 : 0 ≤ (-a) % b := Int.emod_nonneg _ hbne
    have hmodlt : (-a) % b < b := Int.emod_lt_of_pos _ hb
    have hdiv : b * ((-a) / b) = -a - (-a) % b := by
      have := Int.ediv_add_emod (-a) b
      linarith
    have hceil : b * ceilDiv a b = a + (-a) % b := by
      unfold ceilDiv
      rw [hfd, mul_neg, hdiv]
      ring
    constructor <;> rw [hceil] <;> linarith

/-- A sample rented vehicle: monthly rate 50000, span of 45 days. -/
def c8Vehicle : Vehicle :=
  { id := "v9"
    projectId := "Project A"
    vehicleName := "Crane"
    vehicleNumber := "KA09"
    vehicleType := "Rent – Monthly"
    fuelType := "Diesel"
    status := VStatus.Active
    startDate := some 0
    endDate := some (86400000 * 45)
    statusHistory := []
    rentPrice := some 50000
    rentPeriod := some "monthly" }

/-- Witness for C8 at a concrete input: the monthly branch on the sample
rented vehicle, and the round-up law at quantity 100 and unit 30. -/
theorem totalRentCost_stepped_rounding_witness :
    totalRentCost 0 c8Vehicle
      = 50000 * ((ceilDiv (ceilDiv (c8Vehicle.endDate.getD 0 - c8Vehicle.startDate.getD 0)
          msPerDay + 1) 30 : Int) : ℚ)
  ∧ (100 ≤ 30 * ceilDiv 100 30 ∧ 30 * ceilDiv 100 30 < 100 + 30) :=
  ⟨(totalRentCost_stepped_rounding.1 0 c8Vehicle 50000 rfl (by decide) (by decide)).1
      rfl,
   totalRentCost_stepped_rounding.2 100 30 (by decide)⟩

end FuelApp
